import Mathlib

/-!
Verification development for the `fastTSNE` affinity subsystem
(`fastTSNE/affinity.py`).

The Python module computes sparse affinity matrices for t-SNE from
nearest-neighbor data.  We give a shallow embedding of its data model and
operations over exact rational arithmetic:

* dense/sparse matrices become a `Mat` record (row count, column count,
  entry function into `ℚ`);
* the scipy `csr_matrix((vals, indices, rowptr))` constructor with exactly
  `k` stored entries per row becomes `csrMatrix`;
* the external KNN index (out of scope per the spec, consumed only through
  `query_train` / `query`) becomes a `KNNIndex` record of oracle functions;
* the external calibrator `_tsne.compute_gaussian_perplexity` (whose code is
  not part of this repository snapshot) is modelled from the spec as an
  abstract calibrator argument `Calib` together with the predicate
  `CalibSpec` capturing the row-stochasticity the spec guarantees;
* Python floats become `ℚ`; `int(...)` truncation becomes `pyInt`;
* raising becomes `Except String` results, and the in-place mutation of
  `set_perplexity` becomes a state-passing function returning the state
  after the call together with an optional error.
-/

/-- Python `int(q)` applied to a numeric value: truncation toward zero. -/
def pyInt (q : ℚ) : ℤ := if 0 ≤ q then ⌊q⌋ else ⌈q⌉

/-- A dense-or-sparse matrix over `ℚ`: a shape together with an entry
function.  Entries are read only at indices below `rows`/`cols`. -/
structure Mat where
  rows : ℕ
  cols : ℕ
  entry : ℕ → ℕ → ℚ

/-- Total sum of all entries, `np.sum(P)`. -/
def Mat.total (M : Mat) : ℚ :=
  ∑ i ∈ Finset.range M.rows, ∑ j ∈ Finset.range M.cols, M.entry i j

/-- Matrix transpose, `P.T`. -/
def Mat.transpose (M : Mat) : Mat :=
  { rows := M.cols, cols := M.rows, entry := fun i j => M.entry j i }

/-- Entrywise sum, `P + Q` (used only at equal shapes). -/
def Mat.add (A B : Mat) : Mat :=
  { rows := A.rows, cols := A.cols, entry := fun i j => A.entry i j + B.entry i j }

/-- Division of every entry by a scalar, `P / c` or `P /= c`. -/
def Mat.divScalar (M : Mat) (c : ℚ) : Mat :=
  { rows := M.rows, cols := M.cols, entry := fun i j => M.entry i j / c }

/-- Global normalization `P /= np.sum(P)`. -/
def Mat.normalize (M : Mat) : Mat := M.divScalar M.total

/-- A matrix whose entry function is symmetric. -/
def Mat.IsSymm (M : Mat) : Prop := ∀ i j, M.entry i j = M.entry j i

/-- The scipy construction
`csr_matrix((vals.ravel(), neighbors.ravel(), range(0, n*k+1, k)), shape=(n, nref))`:
row `i` holds value `vals i c` at column `neighbors i c` for `c < k`
(duplicate column indices within a row accumulate, as in scipy). -/
def csrMatrix (n k nref : ℕ) (vals : ℕ → ℕ → ℚ) (neighbors : ℕ → ℕ → ℕ) : Mat :=
  { rows := n
    cols := nref
    entry := fun i j => ∑ c ∈ Finset.range k, if neighbors i c = j then vals i c else 0 }

/-- Shape of a calibrator: from a distance matrix, a neighbor count and a
list of target perplexities to a conditional-probability matrix. -/
def Calib : Type :=
  (ℕ → ℕ → ℚ) → ℕ → List ℚ → (ℕ → ℕ → ℚ)

/-- Modelled from the spec: `_tsne.compute_gaussian_perplexity` is code of
this repository that is missing from the snapshot (only its caller
`joint_probabilities_nn` is present).  Per spec section 4.2, for each target
perplexity it calibrates a Gaussian kernel row against the distances and
normalizes it to sum to 1, and the rows of the several perplexities are
summed.  `CalibSpec` states exactly that interface contract: entries are
nonnegative and every row of the output sums to the number of target
perplexities. -/
def CalibSpec (calib : Calib) : Prop :=
  ∀ d k ps,
    (∀ i c, 0 ≤ calib d k ps i c) ∧
    (∀ i, 0 < k → (∑ c ∈ Finset.range k, calib d k ps i c) = (ps.length : ℚ))

/-- The external nearest-neighbor index (spec section 4.1): an already-built
index over `n` reference points, exposing `query_train` (neighbors of the
reference points among themselves) and `query` (neighbors of `m` new points
among the reference points).  The requested neighbor count is passed as the
Python `int` that the callers compute. -/
structure KNNIndex where
  queryTrain : ℤ → (ℕ → ℕ → ℕ) × (ℕ → ℕ → ℚ)
  query : ℕ → ℤ → (ℕ → ℕ → ℕ) × (ℕ → ℕ → ℚ)

/-- Error message of `PerplexityBasedNN.check_perplexity`. -/
def perplexityValueErr : String := "Perplexity must be >=0."

/-- Error message of the `set_perplexity` neighbor-cache check. -/
def perplexityTooLargeErr : String :=
  "The desired perplexity is larger than the initial one used."

/-- Translation of `PerplexityBasedNN.check_perplexity`: reject non-positive
values, clamp a perplexity whose implied neighbor count exceeds
`n_samples - 1` down to `(n_samples - 1) / 3` (with a logged warning, not an
error). -/
def check_perplexity (n : ℕ) (perplexity : ℚ) : Except String ℚ :=
  if perplexity ≤ 0 then .error perplexityValueErr
  else if (n : ℚ) - 1 < 3 * perplexity then .ok (((n : ℚ) - 1) / 3)
  else .ok perplexity

/-- The value `check_perplexity` returns on a positive input. -/
def checkedPerplexity (n : ℕ) (perplexity : ℚ) : ℚ :=
  if (n : ℚ) - 1 < 3 * perplexity then ((n : ℚ) - 1) / 3 else perplexity

/-- The neighbor count `min(n_samples - 1, int(3 * perplexity))` computed by
`PerplexityBasedNN.__init__`, `set_perplexity`, `to_new` and
`Multiscale.__init__` / `Multiscale.to_new` (for the latter two applied to the
maximum perplexity).  Computed in `ℤ` exactly as Python computes it. -/
def kNeighbors (n : ℕ) (perplexity : ℚ) : ℤ :=
  min ((n : ℤ) - 1) (pyInt (3 * perplexity))

/-- Translation of `joint_probabilities_nn(neighbors, distances, perplexities,
symmetrize, n_reference_samples, n_jobs)`.  The dense shapes `n × k` are
passed explicitly (`distances.shape`), the distance matrix feeds the
calibrator, and the pipeline is: calibrate, assemble the csr matrix,
optionally symmetrize by `(P + P.T) / 2`, then always divide by the total
entry sum. -/
def jointProbabilitiesNN (calib : Calib) (n k : ℕ) (neighbors : ℕ → ℕ → ℕ)
    (distances : ℕ → ℕ → ℚ) (perplexities : List ℚ) (symmetrize : Bool)
    (nReferenceSamples : Option ℕ) : Mat :=
  let nref := nReferenceSamples.getD n
  let conditionalP := calib distances k perplexities
  let P := csrMatrix n k nref conditionalP neighbors
  let P := if symmetrize then (P.add P.transpose).divScalar 2 else P
  P.normalize

/-- State of a `PerplexityBasedNN` instance: the fields assigned by
`__init__` (`n_samples`, `perplexity`, `knn_index`, the cached private
`__neighbors` / `__distances` arrays with their column count, and `P`). -/
structure PerplexityBasedNN where
  n_samples : ℕ
  perplexity : ℚ
  knn_index : KNNIndex
  neighbors : ℕ → ℕ → ℕ
  distances : ℕ → ℕ → ℚ
  neighborsCols : ℕ
  P : Mat

/-- Translation of `PerplexityBasedNN.__init__` (the KNN index build is the
external `build_knn_index`; the built index is a parameter).  Checks the
perplexity, fetches `min(n_samples - 1, int(3 * perplexity))` neighbors once,
and assembles `P` with the caller's `symmetrize` flag. -/
def PerplexityBasedNN.init (calib : Calib) (knn : KNNIndex) (n : ℕ)
    (perplexity : ℚ) (symmetrize : Bool) : Except String PerplexityBasedNN := do
  let p ← check_perplexity n perplexity
  let k := kNeighbors n p
  let q := knn.queryTrain k
  Except.ok
    { n_samples := n
      perplexity := p
      knn_index := knn
      neighbors := q.1
      distances := q.2
      neighborsCols := k.toNat
      P := jointProbabilitiesNN calib n k.toNat q.1 q.2 [p] symmetrize none }

/-- Translation of `PerplexityBasedNN.set_perplexity`: no-op when the value
is unchanged; check the new value; raise when the implied neighbor count
exceeds the cached neighbor columns; otherwise recompute `P` from the
column-truncated cached arrays with `symmetrize=True` hard-coded.  Returns
the state after the call paired with the raised error, if any (an error
leaves the object untouched, as in the source where both checks precede the
assignments). -/
def PerplexityBasedNN.set_perplexity (calib : Calib) (st : PerplexityBasedNN)
    (newPerplexity : ℚ) : PerplexityBasedNN × Option String :=
  if newPerplexity = st.perplexity then (st, none)
  else
    match check_perplexity st.n_samples newPerplexity with
    | .error e => (st, some e)
    | .ok p =>
      let k := kNeighbors st.n_samples p
      if (st.neighborsCols : ℤ) < k then (st, some perplexityTooLargeErr)
      else
        ({ st with
            perplexity := p
            P := jointProbabilitiesNN calib st.n_samples k.toNat st.neighbors
              st.distances [p] true none }, none)

/-- Translation of `PerplexityBasedNN.to_new` (the `P`-returning path):
check the (possibly overridden) perplexity, query the stored index for the
`m` new points, and assemble with `symmetrize=False` and
`n_reference_samples = self.n_samples`. -/
def PerplexityBasedNN.to_new (calib : Calib) (st : PerplexityBasedNN) (m : ℕ)
    (perplexityOpt : Option ℚ) : Except String Mat := do
  let p0 := perplexityOpt.getD st.perplexity
  let p ← check_perplexity st.n_samples p0
  let k := kNeighbors st.n_samples p
  let q := st.knn_index.query m k
  Except.ok
    (jointProbabilitiesNN calib m k.toNat q.1 q.2 [p] false (some st.n_samples))

/-- Error message of the `FixedSigmaNN.__init__` neighbor-count check. -/
def fixedSigmaInitKErr : String := "`k` cannot be larger than N-1."

/-- Error message of the `FixedSigmaNN.to_new` neighbor-count check. -/
def fixedSigmaToNewKErr : String :=
  "`k` cannot be larger than the number of reference samples."

/-- The per-row conditional probabilities of `FixedSigmaNN`:
`conditional_P = np.exp(-distances ** 2 / (2 * sigma ** 2))` followed by the
row normalization `conditional_P /= np.sum(conditional_P, axis=1)`.  The
transcendental `np.exp` is represented by an abstract kernel function
`gauss`; every theorem below holds for an arbitrary positive `gauss`. -/
def FixedSigmaNN.conditionalP (gauss : ℚ → ℚ) (sigma : ℚ) (k : ℕ)
    (distances : ℕ → ℕ → ℚ) : ℕ → ℕ → ℚ :=
  fun i c =>
    gauss (-(distances i c) ^ 2 / (2 * sigma ^ 2)) /
      ∑ c' ∈ Finset.range k, gauss (-(distances i c') ^ 2 / (2 * sigma ^ 2))

/-- The training-time matrix pipeline of `FixedSigmaNN.__init__`: assemble
the `n × n` csr matrix from the row-normalized Gaussian kernel, symmetrize
by `(P + P.T) / 2` when requested, then divide every entry by
`np.sum(conditional_P)`. -/
def fixedSigmaP (gauss : ℚ → ℚ) (knn : KNNIndex) (n : ℕ) (sigma : ℚ) (k : ℕ)
    (symmetrize : Bool) : Mat :=
  let q := knn.queryTrain (k : ℤ)
  let conditionalP := FixedSigmaNN.conditionalP gauss sigma k q.2
  let P := csrMatrix n k n conditionalP q.1
  let P := if symmetrize then (P.add P.transpose).divScalar 2 else P
  P.divScalar (∑ i ∈ Finset.range n, ∑ c ∈ Finset.range k, conditionalP i c)

/-- State of a `FixedSigmaNN` instance: the fields assigned by `__init__`. -/
structure FixedSigmaNN where
  n_samples : ℕ
  sigma : ℚ
  k : ℕ
  knn_index : KNNIndex
  P : Mat

/-- Translation of `FixedSigmaNN.__init__`: reject `k >= n_samples`, then
query `k` neighbors and run the fixed-bandwidth pipeline. -/
def FixedSigmaNN.init (gauss : ℚ → ℚ) (knn : KNNIndex) (n : ℕ) (sigma : ℚ)
    (k : ℕ) (symmetrize : Bool) : Except String FixedSigmaNN :=
  if n ≤ k then .error fixedSigmaInitKErr
  else
    .ok
      { n_samples := n
        sigma := sigma
        k := k
        knn_index := knn
        P := fixedSigmaP gauss knn n sigma k symmetrize }

/-- The matrix built by `FixedSigmaNN.to_new`: the `m × n_reference` csr
assembly of the row-normalized kernel, never symmetrized, divided by
`np.sum(conditional_P)`. -/
def fixedSigmaToNewP (gauss : ℚ → ℚ) (st : FixedSigmaNN) (m k : ℕ) (sigma : ℚ) :
    Mat :=
  let q := st.knn_index.query m (k : ℤ)
  let conditionalP := FixedSigmaNN.conditionalP gauss sigma k q.2
  let P := csrMatrix m k st.n_samples conditionalP q.1
  P.divScalar (∑ i ∈ Finset.range m, ∑ c ∈ Finset.range k, conditionalP i c)

/-- Translation of `FixedSigmaNN.to_new` (the `P`-returning path): `k` and
`sigma` default to the stored values; an explicitly supplied `k` is rejected
when `k >= n_reference_samples`; the stored-`k` path performs no check. -/
def FixedSigmaNN.to_new (gauss : ℚ → ℚ) (st : FixedSigmaNN) (m : ℕ)
    (kOpt : Option ℕ) (sigmaOpt : Option ℚ) : Except String Mat :=
  match kOpt with
  | none => .ok (fixedSigmaToNewP gauss st m st.k (sigmaOpt.getD st.sigma))
  | some kv =>
    if st.n_samples ≤ kv then .error fixedSigmaToNewKErr
    else .ok (fixedSigmaToNewP gauss st m kv (sigmaOpt.getD st.sigma))

/-- Translation of `Multiscale.check_perplexities`: iterate over the sorted
list; a perplexity whose implied neighbor count exceeds `n_samples - 1` is
replaced by `(n_samples - 1) / 3` unless that clamped value is already in the
accumulated list, in which case it is dropped; both cases only log a
warning.  No positivity check is performed. -/
def Multiscale.check_perplexities (n : ℕ) (perplexities : List ℚ) : List ℚ :=
  (List.insertionSort (· ≤ ·) perplexities).foldl
    (fun usable p =>
      if (n : ℚ) - 1 < 3 * p then
        let newPerplexity := ((n : ℚ) - 1) / 3
        if newPerplexity ∈ usable then usable else usable ++ [newPerplexity]
      else usable ++ [p])
    []

/-- The `np.max` of a nonempty list (on the empty list `np.max` raises; the
default is irrelevant and chosen as the head so the fold is total). -/
def npMax (l : List ℚ) : ℚ := l.foldr max (l.headD 0)

/-- State of a `Multiscale` instance: the fields assigned by `__init__`. -/
structure Multiscale where
  n_samples : ℕ
  perplexities : List ℚ
  knn_index : KNNIndex
  P : Mat

/-- Translation of `Multiscale.__init__`: validate/clamp the perplexity
list, fetch `min(n_samples - 1, int(3 * max(perplexities)))` neighbors once,
and assemble `P` over the whole perplexity list with the caller's
`symmetrize` flag.  No error path exists in the source constructor itself
(index-build errors are external). -/
def Multiscale.init (calib : Calib) (knn : KNNIndex) (n : ℕ)
    (perplexities : List ℚ) (symmetrize : Bool) : Multiscale :=
  let ps := Multiscale.check_perplexities n perplexities
  let k := kNeighbors n (npMax ps)
  let q := knn.queryTrain k
  { n_samples := n
    perplexities := ps
    knn_index := knn
    P := jointProbabilitiesNN calib n k.toNat q.1 q.2 ps symmetrize none }

/-- Translation of `Multiscale.to_new` (the `P`-returning path): validate
the (possibly overridden) perplexity list, query the stored index for the
`m` new points with the max-based neighbor count, and assemble with
`symmetrize=False` and `n_reference_samples = self.n_samples`. -/
def Multiscale.to_new (calib : Calib) (st : Multiscale) (m : ℕ)
    (perplexitiesOpt : Option (List ℚ)) : Mat :=
  let ps := Multiscale.check_perplexities st.n_samples
    (perplexitiesOpt.getD st.perplexities)
  let k := kNeighbors st.n_samples (npMax ps)
  let q := st.knn_index.query m k
  jointProbabilitiesNN calib m k.toNat q.1 q.2 ps false (some st.n_samples)

/-! ### Basic lemmas about the embedding -/

theorem pyInt_eq_floor (q : ℚ) (h : 0 ≤ q) : pyInt q = ⌊q⌋ := by
  simp [pyInt, h]

theorem pyInt_intCast (m : ℤ) : pyInt (m : ℚ) = m := by
  rcases le_or_lt 0 (m : ℚ) with h | h
  · simp [pyInt, h]
  · simp [pyInt, not_le.2 h, Int.ceil_intCast]

theorem pyInt_nonpos (q : ℚ) (h : q ≤ 0) : pyInt q ≤ 0 := by
  rcases eq_or_lt_of_le h with rfl | h'
  · simp [pyInt]
  · have : ¬ (0 : ℚ) ≤ q := not_le.2 h'
    simp only [pyInt, if_neg this]
    exact Int.ceil_le.2 (by exact_mod_cast h)

theorem check_perplexity_pos (n : ℕ) (p : ℚ) (h : 0 < p) :
    check_perplexity n p = .ok (checkedPerplexity n p) := by
  rw [check_perplexity, checkedPerplexity, if_neg (not_le.2 h)]
  split <;> rfl

theorem check_perplexity_nonpos (n : ℕ) (p : ℚ) (h : p ≤ 0) :
    check_perplexity n p = .error perplexityValueErr := by
  rw [check_perplexity, if_pos h]

theorem checkedPerplexity_pos (n : ℕ) (p : ℚ) (hn : 2 ≤ n) (hp : 0 < p) :
    0 < checkedPerplexity n p := by
  rw [checkedPerplexity]
  have h2 : (2 : ℚ) ≤ (n : ℚ) := by exact_mod_cast hn
  split
  · linarith
  · exact hp

theorem kNeighbors_le (n : ℕ) (p : ℚ) : kNeighbors n p ≤ (n : ℤ) - 1 :=
  min_le_left _ _

theorem kNeighbors_clamped (n : ℕ) :
    kNeighbors n (((n : ℚ) - 1) / 3) = (n : ℤ) - 1 := by
  have h3 : (3 : ℚ) * (((n : ℚ) - 1) / 3) = ((n : ℚ) - 1) := by ring
  have hcast : ((n : ℚ) - 1) = (((n : ℤ) - 1 : ℤ) : ℚ) := by push_cast; ring
  rw [kNeighbors, h3, hcast, pyInt_intCast, min_self]

theorem csrMatrix_total (n k nref : ℕ) (vals : ℕ → ℕ → ℚ)
    (neighbors : ℕ → ℕ → ℕ) (hrange : ∀ i c, neighbors i c < nref) :
    (csrMatrix n k nref vals neighbors).total =
      ∑ i ∈ Finset.range n, ∑ c ∈ Finset.range k, vals i c := by
  rw [Mat.total, csrMatrix]
  refine Finset.sum_congr rfl fun i _ => ?_
  rw [Finset.sum_comm]
  refine Finset.sum_congr rfl fun c _ => ?_
  rw [Finset.sum_ite_eq (Finset.range nref) (neighbors i c) (fun _ => vals i c)]
  rw [if_pos (Finset.mem_range.2 (hrange i c))]

theorem symmetrized_total (M : Mat) (h : M.rows = M.cols) :
    ((M.add M.transpose).divScalar 2).total = M.total := by
  obtain ⟨r, c, e⟩ := M
  simp only [Mat.total, Mat.divScalar, Mat.add, Mat.transpose] at h ⊢
  subst h
  simp only [add_div, Finset.sum_add_distrib, ← Finset.sum_div]
  have h2 : (∑ i ∈ Finset.range r, ∑ j ∈ Finset.range r, e j i) =
      ∑ i ∈ Finset.range r, ∑ j ∈ Finset.range r, e i j := Finset.sum_comm
  rw [h2]
  ring

theorem normalize_total (M : Mat) (h : M.total ≠ 0) : M.normalize.total = 1 := by
  obtain ⟨r, c, e⟩ := M
  simp only [Mat.normalize, Mat.total, Mat.divScalar] at h ⊢
  simp only [← Finset.sum_div]
  exact div_self h

theorem calib_total (calib : Calib) (hcal : CalibSpec calib)
    (d : ℕ → ℕ → ℚ) (n k : ℕ) (ps : List ℚ) (hk : 0 < k) :
    (∑ i ∈ Finset.range n, ∑ c ∈ Finset.range k, calib d k ps i c) =
      (n : ℚ) * ps.length := by
  rw [Finset.sum_congr rfl fun i _ => (hcal d k ps).2 i hk]
  rw [Finset.sum_const, Finset.card_range, nsmul_eq_mul]

theorem jointProbabilitiesNN_total (calib : Calib) (hcal : CalibSpec calib)
    (n k : ℕ) (neighbors : ℕ → ℕ → ℕ) (distances : ℕ → ℕ → ℚ) (ps : List ℚ)
    (symmetrize : Bool) (hn : 0 < n) (hk : 0 < k) (hps : ps ≠ [])
    (hrange : ∀ i c, neighbors i c < n) :
    (jointProbabilitiesNN calib n k neighbors distances ps symmetrize none).total
      = 1 := by
  have htot :
      (csrMatrix n k n (calib distances k ps) neighbors).total =
        (n : ℚ) * ps.length := by
    rw [csrMatrix_total n k n _ neighbors hrange]
    exact calib_total calib hcal distances n k ps hk
  have hne : ((n : ℚ) * ps.length) ≠ 0 := by
    have h1 : (0 : ℚ) < (n : ℚ) := by exact_mod_cast hn
    have h2 : (0 : ℚ) < (ps.length : ℚ) := by
      have := List.length_pos.2 hps
      exact_mod_cast this
    positivity
  rw [jointProbabilitiesNN]
  simp only [Option.getD]
  cases symmetrize with
  | false =>
    simp only [Bool.false_eq_true, if_false]
    exact normalize_total _ (by rw [htot]; exact hne)
  | true =>
    simp only [if_true]
    refine normalize_total _ ?_
    rw [symmetrized_total _ rfl, htot]
    exact hne

/-! ### Concrete instantiations used to exercise the theorems -/

/-- A concrete calibrator satisfying the spec contract: every entry of a
row of `k` neighbors is `|perplexities| / k`. -/
def wCalib : Calib := fun _ k ps _ _ => (ps.length : ℚ) / k

theorem wCalib_spec : CalibSpec wCalib := by
  intro d k ps
  constructor
  · intro i c
    exact div_nonneg (by positivity) (by positivity)
  · intro i hk
    simp only [wCalib]
    rw [Finset.sum_const, Finset.card_range, nsmul_eq_mul]
    have : (k : ℚ) ≠ 0 := by exact_mod_cast hk.ne'
    field_simp

/-- A concrete KNN index: every query reports reference point `0` at
distance `1`. -/
def wKnn : KNNIndex where
  queryTrain := fun _ => (fun _ _ => 0, fun _ _ => 1)
  query := fun _ _ => (fun _ _ => 0, fun _ _ => 1)

/-- A concrete positive stand-in for `np.exp`. -/
def wGauss : ℚ → ℚ := fun _ => 1

/-- A concrete well-formed `PerplexityBasedNN` state: 10 samples,
perplexity 2, 6 cached neighbor columns. -/
def wPerp : PerplexityBasedNN where
  n_samples := 10
  perplexity := 2
  knn_index := wKnn
  neighbors := fun _ _ => 0
  distances := fun _ _ => 1
  neighborsCols := 6
  P := { rows := 0, cols := 0, entry := fun _ _ => 0 }

/-- A concrete `FixedSigmaNN` state: 10 samples, sigma 1, k 3. -/
def wFixed : FixedSigmaNN where
  n_samples := 10
  sigma := 1
  k := 3
  knn_index := wKnn
  P := { rows := 0, cols := 0, entry := fun _ _ => 0 }

/-- A concrete `Multiscale` state: 10 samples, perplexities `[1, 2]`. -/
def wMulti : Multiscale where
  n_samples := 10
  perplexities := [1, 2]
  knn_index := wKnn
  P := { rows := 0, cols := 0, entry := fun _ _ => 0 }

/-! ### The recalibration path never touches the KNN index -/

theorem set_perplexity_knn_irrelevant (calib : Calib) (st : PerplexityBasedNN)
    (knn0 : KNNIndex) (newPerplexity : ℚ) :
    ({ st with knn_index := knn0 } : PerplexityBasedNN).set_perplexity calib
        newPerplexity =
      (({ (st.set_perplexity calib newPerplexity).1 with knn_index := knn0 }),
        (st.set_perplexity calib newPerplexity).2) := by
  rw [PerplexityBasedNN.set_perplexity, PerplexityBasedNN.set_perplexity]
  simp only
  by_cases h1 : newPerplexity = st.perplexity
  · simp [h1]
  · rw [if_neg h1, if_neg h1]
    cases hc : check_perplexity st.n_samples newPerplexity with
    | error e => simp
    | ok p =>
      simp only
      by_cases h2 : (st.neighborsCols : ℤ) < kNeighbors st.n_samples p
      · rw [if_pos h2, if_pos h2]
      · rw [if_neg h2, if_neg h2]

/-! ### Claim theorems -/

/-- C1: for every valid perplexity-based construction (positive requested
perplexity, at least two samples, at least one neighbor implied, a
spec-conforming calibrator, and neighbor indices within the reference set,
as the KNN contract guarantees), the affinity matrix `P` assembled by
`PerplexityBasedNN.__init__` has total entry sum exactly 1, whether or not
symmetrization was requested. -/
theorem perplexity_construction_total_one (calib : Calib) (knn : KNNIndex)
    (n : ℕ) (p : ℚ) (symmetrize : Bool)
    (hcal : CalibSpec calib)
    (hrange : ∀ k i c, (knn.queryTrain k).1 i c < n)
    (hp : 0 < p) (hn : 2 ≤ n)
    (hk : 1 ≤ pyInt (3 * checkedPerplexity n p)) :
    (PerplexityBasedNN.init calib knn n p symmetrize).map (fun st => st.P.total)
      = .ok 1 := by
  rw [PerplexityBasedNN.init, check_perplexity_pos n p hp]
  simp only [bind, Except.bind, Except.map]
  have hk1 : 1 ≤ kNeighbors n (checkedPerplexity n p) := by
    refine le_min ?_ hk
    omega
  have hkpos : 0 < (kNeighbors n (checkedPerplexity n p)).toNat := by omega
  have hnpos : 0 < n := by omega
  exact congrArg Except.ok
    (jointProbabilitiesNN_total calib hcal n _ _ _ [checkedPerplexity n p]
      symmetrize hnpos hkpos (by simp)
      (hrange (kNeighbors n (checkedPerplexity n p))))

/-- C1 witness: a concrete construction over 4 samples at perplexity 1. -/
theorem perplexity_construction_total_one_witness :
    (PerplexityBasedNN.init wCalib wKnn 4 1 true).map (fun st => st.P.total)
      = .ok 1 :=
  perplexity_construction_total_one wCalib wKnn 4 1 true wCalib_spec
    (fun _ _ _ => by simp [wKnn]) (by norm_num) (by norm_num)
    (by norm_num [checkedPerplexity, pyInt])

/-- C3: on a well-formed `PerplexityBasedNN` state (its stored perplexity fits
the cached neighbor columns), calling `set_perplexity` with a value whose
implied neighbor count `min(n_samples - 1, int(3 * perplexity))` exceeds the
cached neighbor column count raises the `RuntimeError` and leaves the whole
state — in particular the stored perplexity and the stored matrix `P` —
unchanged. -/
theorem set_perplexity_too_large_error (calib : Calib)
    (st : PerplexityBasedNN) (p' : ℚ)
    (hinv : kNeighbors st.n_samples st.perplexity ≤ (st.neighborsCols : ℤ))
    (h : (st.neighborsCols : ℤ) < kNeighbors st.n_samples p') :
    (st.set_perplexity calib p').2 = some perplexityTooLargeErr ∧
      (st.set_perplexity calib p').1 = st := by
  have hne : p' ≠ st.perplexity := by
    intro he
    rw [he] at h
    exact absurd h (not_lt.2 hinv)
  have hpos : 0 < p' := by
    by_contra hle
    push_neg at hle
    have h3 : 3 * p' ≤ 0 := by linarith
    have htr : kNeighbors st.n_samples p' ≤ 0 :=
      le_trans (min_le_right _ _) (pyInt_nonpos _ h3)
    have : kNeighbors st.n_samples p' ≤ (st.neighborsCols : ℤ) :=
      le_trans htr (by positivity)
    exact absurd h (not_lt.2 this)
  have hcond : (st.neighborsCols : ℤ) <
      kNeighbors st.n_samples (checkedPerplexity st.n_samples p') := by
    rw [checkedPerplexity]
    split
    · rw [kNeighbors_clamped]
      exact lt_of_lt_of_le h (kNeighbors_le _ _)
    · exact h
  rw [PerplexityBasedNN.set_perplexity, if_neg hne,
    check_perplexity_pos _ _ hpos]
  simp only [if_pos hcond]
  constructor <;> trivial

/-- C3 witness: on the concrete state with perplexity 2 and 6 cached
neighbor columns, requesting perplexity 3 (implied count 9) errors and
changes nothing. -/
theorem set_perplexity_too_large_error_witness :
    (wPerp.set_perplexity wCalib 3).2 = some perplexityTooLargeErr ∧
      (wPerp.set_perplexity wCalib 3).1 = wPerp :=
  set_perplexity_too_large_error wCalib wPerp 3
    (by norm_num [wPerp, kNeighbors, pyInt])
    (by norm_num [wPerp, kNeighbors, pyInt])

theorem set_perplexity_ok_eq (calib : Calib) (st : PerplexityBasedNN) (p' : ℚ)
    (hch : p' ≠ st.perplexity) (hpos : 0 < p')
    (hfit : kNeighbors st.n_samples (checkedPerplexity st.n_samples p') ≤
      (st.neighborsCols : ℤ)) :
    st.set_perplexity calib p' =
      ({ st with
          perplexity := checkedPerplexity st.n_samples p'
          P := jointProbabilitiesNN calib st.n_samples
            (kNeighbors st.n_samples (checkedPerplexity st.n_samples p')).toNat
            st.neighbors st.distances [checkedPerplexity st.n_samples p'] true
            none }, none) := by
  rw [PerplexityBasedNN.set_perplexity, if_neg hch,
    check_perplexity_pos _ _ hpos]
  simp only [if_neg (not_lt.2 hfit)]

/-- C4: a successful `set_perplexity` call with a changed, positive
perplexity that fits the cached neighbor columns recomputes `P` purely from
the column-truncated cached neighbor/distance arrays (truncation to the new
implied column count), leaves the cached arrays, their column count and the
stored KNN index untouched, and issues no KNN query at all: the entire call
result is independent of the stored index. -/
theorem set_perplexity_lower_uses_cache (calib : Calib)
    (st : PerplexityBasedNN) (p' : ℚ)
    (hch : p' ≠ st.perplexity) (hpos : 0 < p')
    (hfit : kNeighbors st.n_samples (checkedPerplexity st.n_samples p') ≤
      (st.neighborsCols : ℤ)) :
    (st.set_perplexity calib p').2 = none ∧
    (st.set_perplexity calib p').1.neighbors = st.neighbors ∧
    (st.set_perplexity calib p').1.distances = st.distances ∧
    (st.set_perplexity calib p').1.neighborsCols = st.neighborsCols ∧
    (st.set_perplexity calib p').1.knn_index = st.knn_index ∧
    (st.set_perplexity calib p').1.P =
      jointProbabilitiesNN calib st.n_samples
        (kNeighbors st.n_samples (checkedPerplexity st.n_samples p')).toNat
        st.neighbors st.distances [checkedPerplexity st.n_samples p'] true
        none ∧
    (∀ knn0 : KNNIndex,
      ({ st with knn_index := knn0 } : PerplexityBasedNN).set_perplexity calib
          p' =
        ({ (st.set_perplexity calib p').1 with knn_index := knn0 },
          (st.set_perplexity calib p').2)) := by
  have hmain := set_perplexity_ok_eq calib st p' hch hpos hfit
  rw [hmain]
  refine ⟨rfl, rfl, rfl, rfl, rfl, rfl, ?_⟩
  intro knn0
  rw [set_perplexity_knn_irrelevant, hmain]

/-- C4 witness: lowering the concrete state's perplexity from 2 to 1
succeeds. -/
theorem set_perplexity_lower_uses_cache_witness :
    (wPerp.set_perplexity wCalib 1).2 = none ∧
      (wPerp.set_perplexity wCalib 1).1.neighbors = wPerp.neighbors :=
  ⟨(set_perplexity_lower_uses_cache wCalib wPerp 1
      (by norm_num [wPerp]) (by norm_num)
      (by norm_num [wPerp, kNeighbors, checkedPerplexity, pyInt])).1,
    (set_perplexity_lower_uses_cache wCalib wPerp 1
      (by norm_num [wPerp]) (by norm_num)
      (by norm_num [wPerp, kNeighbors, checkedPerplexity, pyInt])).2.1⟩

theorem jointProbabilitiesNN_symm (calib : Calib) (n k : ℕ)
    (neighbors : ℕ → ℕ → ℕ) (distances : ℕ → ℕ → ℚ) (ps : List ℚ)
    (nref : Option ℕ) :
    Mat.IsSymm (jointProbabilitiesNN calib n k neighbors distances ps true
      nref) := by
  intro i j
  simp only [jointProbabilitiesNN, Mat.normalize, Mat.divScalar, Mat.add,
    Mat.transpose, if_true]
  rw [add_comm]

/-- C10: any successful recalibration through `set_perplexity` (changed
positive value fitting the cached columns) rebuilds `P` with
`symmetrize=True` hard-coded — independent of whatever `symmetrize` flag the
instance was constructed with, which is not even stored on the object — so
the resulting matrix is always the symmetrized one. -/
theorem set_perplexity_hardcodes_symmetrize (calib : Calib)
    (st : PerplexityBasedNN) (p' : ℚ)
    (hch : p' ≠ st.perplexity) (hpos : 0 < p')
    (hfit : kNeighbors st.n_samples (checkedPerplexity st.n_samples p') ≤
      (st.neighborsCols : ℤ)) :
    (st.set_perplexity calib p').1.P =
      jointProbabilitiesNN calib st.n_samples
        (kNeighbors st.n_samples (checkedPerplexity st.n_samples p')).toNat
        st.neighbors st.distances [checkedPerplexity st.n_samples p'] true
        none ∧
    Mat.IsSymm (st.set_perplexity calib p').1.P := by
  have hP : (st.set_perplexity calib p').1.P =
      jointProbabilitiesNN calib st.n_samples
        (kNeighbors st.n_samples (checkedPerplexity st.n_samples p')).toNat
        st.neighbors st.distances [checkedPerplexity st.n_samples p'] true
        none := by
    rw [set_perplexity_ok_eq calib st p' hch hpos hfit]
  refine ⟨hP, ?_⟩
  rw [hP]
  exact jointProbabilitiesNN_symm _ _ _ _ _ _ _

/-- C10 witness: recalibrating the concrete state (which holds an arbitrary
non-symmetric `P`) to perplexity 3/2 yields the symmetrize-true rebuild. -/
theorem set_perplexity_hardcodes_symmetrize_witness :
    (wPerp.set_perplexity wCalib (3/2)).1.P =
      jointProbabilitiesNN wCalib wPerp.n_samples
        (kNeighbors wPerp.n_samples
          (checkedPerplexity wPerp.n_samples (3/2))).toNat
        wPerp.neighbors wPerp.distances
        [checkedPerplexity wPerp.n_samples (3/2)] true none :=
  (set_perplexity_hardcodes_symmetrize wCalib wPerp (3/2)
    (by norm_num [wPerp]) (by norm_num)
    (by norm_num [wPerp, kNeighbors, checkedPerplexity, pyInt])).1

theorem Mat.transpose_eq_of_symm (M : Mat) (h : M.rows = M.cols)
    (hs : M.IsSymm) : M.transpose = M := by
  obtain ⟨r, c, e⟩ := M
  simp only [Mat.transpose] at h ⊢
  subst h
  simp only [Mat.mk.injEq, true_and]
  funext i j
  exact hs j i

/-- C8: with `symmetrize=True`, both training-time assembly paths — the
calibrated `joint_probabilities_nn` pipeline (used by `PerplexityBasedNN`
and `Multiscale`) and the `FixedSigmaNN.__init__` pipeline — produce a
matrix equal to its own transpose, because symmetrization is the explicit
replacement of `P` by `(P + P.T) / 2` and the subsequent global division
preserves symmetry. -/
theorem symmetrize_true_transpose_eq :
    (∀ calib : Calib, ∀ n k : ℕ, ∀ neighbors : ℕ → ℕ → ℕ,
      ∀ distances : ℕ → ℕ → ℚ, ∀ ps : List ℚ,
      (jointProbabilitiesNN calib n k neighbors distances ps true
          none).transpose =
        jointProbabilitiesNN calib n k neighbors distances ps true none) ∧
    (∀ gauss : ℚ → ℚ, ∀ knn : KNNIndex, ∀ n : ℕ, ∀ sigma : ℚ, ∀ k : ℕ,
      (fixedSigmaP gauss knn n sigma k true).transpose =
        fixedSigmaP gauss knn n sigma k true) := by
  constructor
  · intro calib n k neighbors distances ps
    exact Mat.transpose_eq_of_symm _ rfl
      (jointProbabilitiesNN_symm calib n k neighbors distances ps none)
  · intro gauss knn n sigma k
    refine Mat.transpose_eq_of_symm _ rfl ?_
    intro i j
    simp only [fixedSigmaP, Mat.divScalar, Mat.add, Mat.transpose, if_true]
    rw [add_comm]

/-- C7 counterexample: a non-positive perplexity in a multiscale list does
NOT raise a value error — `Multiscale.check_perplexities` has no positivity
check, so constructing a `Multiscale` over 5 samples with the perplexity
list `[-1]` proceeds normally and stores `[-1]`. -/
theorem multiscale_negative_perplexity_accepted :
    Multiscale.check_perplexities 5 [-1] = [-1] ∧
      (Multiscale.init wCalib wKnn 5 [-1] true).perplexities = [-1] := by
  have h : Multiscale.check_perplexities 5 [-1] = [-1] := by
    norm_num [Multiscale.check_perplexities, List.insertionSort,
      List.orderedInsert]
  refine ⟨h, ?_⟩
  simp only [Multiscale.init]
  exact h

/-- C7 (amended): a non-positive perplexity raises the value error before
any state is computed in the `PerplexityBasedNN` paths — construction,
`set_perplexity` (leaving the state untouched), and `to_new` — via
`check_perplexity`; the `Multiscale` list validation performs no such
check. -/
theorem nonpositive_perplexity_value_error (n : ℕ) (p : ℚ) (hp : p ≤ 0) :
    check_perplexity n p = .error perplexityValueErr ∧
    (∀ calib : Calib, ∀ knn : KNNIndex, ∀ symmetrize : Bool,
      PerplexityBasedNN.init calib knn n p symmetrize =
        .error perplexityValueErr) ∧
    (∀ calib : Calib, ∀ st : PerplexityBasedNN, p ≠ st.perplexity →
      (st.set_perplexity calib p).2 = some perplexityValueErr ∧
        (st.set_perplexity calib p).1 = st) ∧
    (∀ calib : Calib, ∀ st : PerplexityBasedNN, ∀ m : ℕ,
      PerplexityBasedNN.to_new calib st m (some p) =
        .error perplexityValueErr) := by
  refine ⟨check_perplexity_nonpos n p hp, ?_, ?_, ?_⟩
  · intro calib knn symmetrize
    rw [PerplexityBasedNN.init, check_perplexity_nonpos n p hp]
    rfl
  · intro calib st hne
    rw [PerplexityBasedNN.set_perplexity, if_neg hne,
      check_perplexity_nonpos st.n_samples p hp]
    exact ⟨rfl, rfl⟩
  · intro calib st m
    rw [PerplexityBasedNN.to_new]
    simp only [Option.getD]
    rw [check_perplexity_nonpos st.n_samples p hp]
    rfl

/-- C7 amended-claim witness: perplexity `-1` is rejected by the
`PerplexityBasedNN` paths on a concrete state. -/
theorem nonpositive_perplexity_value_error_witness :
    check_perplexity 7 (-1) = .error perplexityValueErr ∧
      (wPerp.set_perplexity wCalib (-1)).2 = some perplexityValueErr :=
  ⟨(nonpositive_perplexity_value_error 7 (-1) (by norm_num)).1,
    ((nonpositive_perplexity_value_error 10 (-1) (by norm_num)).2.2.1 wCalib
      wPerp (by norm_num [wPerp])).1⟩

/-- C5 counterexample: at 100 samples and perplexity 10.5 the construction
requests `min(99, int(3 * 10.5)) = 31` neighbors, while the claimed formula
`min(n_samples - 1, round(3 * perplexity))` gives 32: `int()` truncates, it
does not round. -/
theorem kNeighbors_not_round_counterexample :
    (PerplexityBasedNN.init wCalib wKnn 100 (21/2) true).map
        (fun st => st.neighborsCols) = .ok 31 ∧
      min ((100 : ℤ) - 1) (round ((3 : ℚ) * (21/2))) = 32 := by
  constructor
  · rw [PerplexityBasedNN.init, check_perplexity_pos _ _ (by norm_num)]
    simp only [bind, Except.bind, Except.map, Except.ok.injEq]
    norm_num [checkedPerplexity, kNeighbors, pyInt]
    rfl
  · norm_num [round_eq]

/-- C5 (amended): the neighbor count requested from the KNN index by the
perplexity-based construction is `min(n_samples - 1, ⌊3 * perplexity⌋)` —
the floor (Python `int()` truncation) of three times the already-clamped
perplexity, not its arithmetic rounding — and likewise for `Multiscale`
applied to the maximum of the validated perplexity list. -/
theorem kNeighbors_floor_formula (n : ℕ) (p : ℚ) (ps : List ℚ)
    (h1 : 0 < checkedPerplexity n p)
    (h2 : 0 < npMax (Multiscale.check_perplexities n ps)) :
    kNeighbors n (checkedPerplexity n p) =
      min ((n : ℤ) - 1) ⌊3 * checkedPerplexity n p⌋ ∧
    kNeighbors n (npMax (Multiscale.check_perplexities n ps)) =
      min ((n : ℤ) - 1) ⌊3 * npMax (Multiscale.check_perplexities n ps)⌋ ∧
    (∀ calib : Calib, ∀ knn : KNNIndex, ∀ symmetrize : Bool, 0 < p →
      (PerplexityBasedNN.init calib knn n p symmetrize).map
          (fun st => st.neighborsCols) =
        .ok (min ((n : ℤ) - 1) ⌊3 * checkedPerplexity n p⌋).toNat) := by
  have e1 : kNeighbors n (checkedPerplexity n p) =
      min ((n : ℤ) - 1) ⌊3 * checkedPerplexity n p⌋ := by
    rw [kNeighbors, pyInt_eq_floor _ (by linarith)]
  refine ⟨e1, ?_, ?_⟩
  · rw [kNeighbors, pyInt_eq_floor _ (by linarith)]
  · intro calib knn symmetrize hp
    rw [PerplexityBasedNN.init, check_perplexity_pos _ _ hp]
    simp only [bind, Except.bind, Except.map, Except.ok.injEq]
    rw [e1]

/-- C5 amended-claim witness: the formula evaluated at 100 samples,
perplexity 10.5 and perplexity list `[10.5]`. -/
theorem kNeighbors_floor_formula_witness :
    kNeighbors 100 (checkedPerplexity 100 (21/2)) =
      min ((100 : ℤ) - 1) ⌊3 * checkedPerplexity 100 (21/2)⌋ :=
  (kNeighbors_floor_formula 100 (21/2) [21/2]
    (by norm_num [checkedPerplexity])
    (by norm_num [npMax, Multiscale.check_perplexities, List.insertionSort,
      List.orderedInsert])).1

/-- C9: every operation requests at most `n_samples - 1` neighbors from the
KNN index: the perplexity-derived count (used by `PerplexityBasedNN`
construction / `set_perplexity` / `to_new` and by `Multiscale` construction /
`to_new`) is capped by `min` with `n_samples - 1`, while `FixedSigmaNN`
enforces it by rejecting a caller-supplied `k ≥ n_samples` with an error,
both at construction and for an explicit `k` passed to `to_new`. -/
theorem neighbor_count_at_most_n_minus_one :
    (∀ n : ℕ, ∀ p : ℚ, kNeighbors n p ≤ (n : ℤ) - 1) ∧
    (∀ gauss : ℚ → ℚ, ∀ knn : KNNIndex, ∀ n : ℕ, ∀ sigma : ℚ, ∀ k : ℕ,
      ∀ symmetrize : Bool,
      (FixedSigmaNN.init gauss knn n sigma k symmetrize).isOk = true →
        (k : ℤ) ≤ (n : ℤ) - 1) ∧
    (∀ gauss : ℚ → ℚ, ∀ st : FixedSigmaNN, ∀ m kv : ℕ, ∀ sigmaOpt : Option ℚ,
      (FixedSigmaNN.to_new gauss st m (some kv) sigmaOpt).isOk = true →
        (kv : ℤ) ≤ (st.n_samples : ℤ) - 1) := by
  refine ⟨fun n p => kNeighbors_le n p, ?_, ?_⟩
  · intro gauss knn n sigma k symmetrize h
    rw [FixedSigmaNN.init] at h
    by_cases hnk : n ≤ k
    · rw [if_pos hnk] at h
      simp [Except.isOk, Except.toBool] at h
    · push_neg at hnk
      omega
  · intro gauss st m kv sigmaOpt h
    rw [FixedSigmaNN.to_new] at h
    by_cases hnk : st.n_samples ≤ kv
    · rw [if_pos hnk] at h
      simp [Except.isOk, Except.toBool] at h
    · push_neg at hnk
      omega

/-- C9 witness: concrete instances of all three parts (perplexity-derived
count at 100 samples; accepted `FixedSigmaNN` construction with `k = 3` on
10 samples; accepted explicit `k = 4` in `to_new` on the concrete state). -/
theorem neighbor_count_at_most_n_minus_one_witness :
    kNeighbors 100 30 ≤ (100 : ℤ) - 1 ∧
      ((3 : ℕ) : ℤ) ≤ ((10 : ℕ) : ℤ) - 1 ∧
      ((4 : ℕ) : ℤ) ≤ ((wFixed.n_samples : ℕ) : ℤ) - 1 :=
  ⟨neighbor_count_at_most_n_minus_one.1 100 30,
    neighbor_count_at_most_n_minus_one.2.1 wGauss wKnn 10 1 3 true rfl,
    neighbor_count_at_most_n_minus_one.2.2 wGauss wFixed 5 4 none rfl⟩

/-- C2: for all three variants, `to_new` on `m` new points returns the
`m × n_reference_samples` matrix (first two conjuncts: the assembled-then-
normalized matrices have exactly those dimensions) assembled WITHOUT
symmetrization while the final global normalization step is still applied:
the perplexity-based and multiscale results are exactly
`Mat.normalize (csrMatrix ...)` of the calibrated rows (no transpose
involved), and the fixed-sigma result is exactly the csr assembly divided by
the total of the conditional probabilities. -/
theorem to_new_rectangular_unsymmetrized_normalized :
    (∀ m k nref : ℕ, ∀ vals : ℕ → ℕ → ℚ, ∀ nbrs : ℕ → ℕ → ℕ, ∀ c : ℚ,
      (Mat.normalize (csrMatrix m k nref vals nbrs)).rows = m ∧
      (Mat.normalize (csrMatrix m k nref vals nbrs)).cols = nref ∧
      ((csrMatrix m k nref vals nbrs).divScalar c).rows = m ∧
      ((csrMatrix m k nref vals nbrs).divScalar c).cols = nref) ∧
    (∀ calib : Calib, ∀ st : PerplexityBasedNN, ∀ m : ℕ, ∀ pOpt : Option ℚ,
      0 < pOpt.getD st.perplexity →
      PerplexityBasedNN.to_new calib st m pOpt =
        .ok (Mat.normalize (csrMatrix m
          (kNeighbors st.n_samples
            (checkedPerplexity st.n_samples (pOpt.getD st.perplexity))).toNat
          st.n_samples
          (calib
            (st.knn_index.query m (kNeighbors st.n_samples
              (checkedPerplexity st.n_samples (pOpt.getD st.perplexity)))).2
            (kNeighbors st.n_samples
              (checkedPerplexity st.n_samples (pOpt.getD st.perplexity))).toNat
            [checkedPerplexity st.n_samples (pOpt.getD st.perplexity)])
          (st.knn_index.query m (kNeighbors st.n_samples
            (checkedPerplexity st.n_samples (pOpt.getD st.perplexity)))).1))) ∧
    (∀ calib : Calib, ∀ st : Multiscale, ∀ m : ℕ, ∀ psOpt : Option (List ℚ),
      Multiscale.to_new calib st m psOpt =
        Mat.normalize (csrMatrix m
          (kNeighbors st.n_samples (npMax (Multiscale.check_perplexities
            st.n_samples (psOpt.getD st.perplexities)))).toNat
          st.n_samples
          (calib
            (st.knn_index.query m (kNeighbors st.n_samples
              (npMax (Multiscale.check_perplexities st.n_samples
                (psOpt.getD st.perplexities))))).2
            (kNeighbors st.n_samples (npMax (Multiscale.check_perplexities
              st.n_samples (psOpt.getD st.perplexities)))).toNat
            (Multiscale.check_perplexities st.n_samples
              (psOpt.getD st.perplexities)))
          (st.knn_index.query m (kNeighbors st.n_samples
            (npMax (Multiscale.check_perplexities st.n_samples
              (psOpt.getD st.perplexities))))).1)) ∧
    (∀ gauss : ℚ → ℚ, ∀ st : FixedSigmaNN, ∀ m : ℕ, ∀ sigmaOpt : Option ℚ,
      FixedSigmaNN.to_new gauss st m none sigmaOpt =
        .ok ((csrMatrix m st.k st.n_samples
          (FixedSigmaNN.conditionalP gauss (sigmaOpt.getD st.sigma) st.k
            (st.knn_index.query m (st.k : ℤ)).2)
          (st.knn_index.query m (st.k : ℤ)).1).divScalar
          (∑ i ∈ Finset.range m, ∑ c ∈ Finset.range st.k,
            FixedSigmaNN.conditionalP gauss (sigmaOpt.getD st.sigma) st.k
              (st.knn_index.query m (st.k : ℤ)).2 i c))) ∧
    (∀ gauss : ℚ → ℚ, ∀ st : FixedSigmaNN, ∀ m kv : ℕ, ∀ sigmaOpt : Option ℚ,
      kv < st.n_samples →
      FixedSigmaNN.to_new gauss st m (some kv) sigmaOpt =
        .ok ((csrMatrix m kv st.n_samples
          (FixedSigmaNN.conditionalP gauss (sigmaOpt.getD st.sigma) kv
            (st.knn_index.query m (kv : ℤ)).2)
          (st.knn_index.query m (kv : ℤ)).1).divScalar
          (∑ i ∈ Finset.range m, ∑ c ∈ Finset.range kv,
            FixedSigmaNN.conditionalP gauss (sigmaOpt.getD st.sigma) kv
              (st.knn_index.query m (kv : ℤ)).2 i c))) := by
  refine ⟨fun m k nref vals nbrs c => ⟨rfl, rfl, rfl, rfl⟩, ?_, ?_, ?_, ?_⟩
  · intro calib st m pOpt hp
    rw [PerplexityBasedNN.to_new, check_perplexity_pos _ _ hp]
    rfl
  · intro calib st m psOpt
    rfl
  · intro gauss st m sigmaOpt
    rfl
  · intro gauss st m kv sigmaOpt hlt
    rw [FixedSigmaNN.to_new]
    simp only [if_neg (not_le.2 hlt)]
    rfl

/-- C2 witness: the perplexity-based path at the concrete state (default
perplexity) and the fixed-sigma path with explicit `k = 4` on 10 reference
samples. -/
theorem to_new_rectangular_unsymmetrized_normalized_witness :
    PerplexityBasedNN.to_new wCalib wPerp 2 none =
      .ok (Mat.normalize (csrMatrix 2
        (kNeighbors wPerp.n_samples
          (checkedPerplexity wPerp.n_samples wPerp.perplexity)).toNat
        wPerp.n_samples
        (wCalib
          (wPerp.knn_index.query 2 (kNeighbors wPerp.n_samples
            (checkedPerplexity wPerp.n_samples wPerp.perplexity))).2
          (kNeighbors wPerp.n_samples
            (checkedPerplexity wPerp.n_samples wPerp.perplexity)).toNat
          [checkedPerplexity wPerp.n_samples wPerp.perplexity])
        (wPerp.knn_index.query 2 (kNeighbors wPerp.n_samples
          (checkedPerplexity wPerp.n_samples wPerp.perplexity))).1)) ∧
    FixedSigmaNN.to_new wGauss wFixed 2 (some 4) none =
      .ok ((csrMatrix 2 4 wFixed.n_samples
        (FixedSigmaNN.conditionalP wGauss wFixed.sigma 4
          (wFixed.knn_index.query 2 ((4 : ℕ) : ℤ)).2)
        (wFixed.knn_index.query 2 ((4 : ℕ) : ℤ)).1).divScalar
        (∑ i ∈ Finset.range 2, ∑ c ∈ Finset.range 4,
          FixedSigmaNN.conditionalP wGauss wFixed.sigma 4
            (wFixed.knn_index.query 2 ((4 : ℕ) : ℤ)).2 i c)) :=
  ⟨to_new_rectangular_unsymmetrized_normalized.2.1 wCalib wPerp 2 none
      (by norm_num [wPerp]),
    to_new_rectangular_unsymmetrized_normalized.2.2.2.2 wGauss wFixed 2 4 none
      (by norm_num [wFixed])⟩

theorem init_establishes_cache_invariant (calib : Calib) (knn : KNNIndex)
    (n : ℕ) (p : ℚ) (symmetrize : Bool) (st : PerplexityBasedNN)
    (h : PerplexityBasedNN.init calib knn n p symmetrize = .ok st) :
    kNeighbors st.n_samples st.perplexity ≤ (st.neighborsCols : ℤ) := by
  rw [PerplexityBasedNN.init] at h
  cases hc : check_perplexity n p with
  | error e =>
    rw [hc] at h
    exact absurd h (by simp [bind, Except.bind])
  | ok v =>
    rw [hc] at h
    simp only [bind, Except.bind, Except.ok.injEq] at h
    subst h
    exact Int.self_le_toNat _
